import Mathlib

/-!
Shallow embedding of the second-order dynamics filter of
src/second_order_systems/mod.rs.

Modelling conventions:
* f32 values are modelled as exact rationals (ℚ); arithmetic is exact
  (f32 rounding is not modelled).  The constant std::f32::consts::PI is
  modelled by its exact rational value 13176795/4194304, and the literals
  1.1 and 0.5 by 11/10 and 1/2.  Division follows the usual Lean
  convention x / 0 = 0 where the source would produce an IEEE infinity
  or NaN.
* The Godot value types Vector2, Vector3 and Quaternion are modelled
  componentwise over ℚ, with the operators the source uses
  (componentwise add/sub/neg, scalar multiplication and division,
  Hamilton product, conjugate inverse, 4D dot product).
* The Godot quaternion operations normalized / log / to_exp are external
  library code (the godot crate), not part of this repository; they are
  parameters of the embedding, bundled in QuaternionOps.
* The macro generate_systems_for_simple_types expands to four identical
  structs; the embedding uses one structure SecondOrderSystem T whose
  step function is passed explicitly, plus the four concrete
  instantiations produced by the macro invocations.
-/

namespace Godot

/-- Exact rational value of the f32 constant std::f32::consts::PI. -/
def PI : ℚ := 13176795 / 4194304

/-- Godot Vector2, componentwise over ℚ. -/
structure Vector2 where
  x : ℚ
  y : ℚ
deriving DecidableEq

/-- Godot Vector3, componentwise over ℚ. -/
structure Vector3 where
  x : ℚ
  y : ℚ
  z : ℚ
deriving DecidableEq

/-- Godot Quaternion, componentwise over ℚ. -/
structure Quaternion where
  x : ℚ
  y : ℚ
  z : ℚ
  w : ℚ
deriving DecidableEq

instance : Add Vector2 := ⟨fun a b => ⟨a.x + b.x, a.y + b.y⟩⟩

instance : Sub Vector2 := ⟨fun a b => ⟨a.x - b.x, a.y - b.y⟩⟩

instance : HMul ℚ Vector2 Vector2 := ⟨fun c v => ⟨c * v.x, c * v.y⟩⟩

instance : HDiv Vector2 ℚ Vector2 := ⟨fun v c => ⟨v.x / c, v.y / c⟩⟩

instance : Add Vector3 := ⟨fun a b => ⟨a.x + b.x, a.y + b.y, a.z + b.z⟩⟩

instance : Sub Vector3 := ⟨fun a b => ⟨a.x - b.x, a.y - b.y, a.z - b.z⟩⟩

instance : HMul ℚ Vector3 Vector3 := ⟨fun c v => ⟨c * v.x, c * v.y, c * v.z⟩⟩

instance : HDiv Vector3 ℚ Vector3 := ⟨fun v c => ⟨v.x / c, v.y / c, v.z / c⟩⟩

instance : Add Quaternion :=
  ⟨fun a b => ⟨a.x + b.x, a.y + b.y, a.z + b.z, a.w + b.w⟩⟩

instance : Sub Quaternion :=
  ⟨fun a b => ⟨a.x - b.x, a.y - b.y, a.z - b.z, a.w - b.w⟩⟩

instance : Neg Quaternion := ⟨fun q => ⟨-q.x, -q.y, -q.z, -q.w⟩⟩

instance : HMul ℚ Quaternion Quaternion :=
  ⟨fun c q => ⟨c * q.x, c * q.y, c * q.z, c * q.w⟩⟩

instance : HDiv Quaternion ℚ Quaternion :=
  ⟨fun q c => ⟨q.x / c, q.y / c, q.z / c, q.w / c⟩⟩

/-- Godot quaternion (Hamilton) product, left operand first. -/
instance : Mul Quaternion :=
  ⟨fun a b =>
    ⟨a.w * b.x + a.x * b.w + a.y * b.z - a.z * b.y,
     a.w * b.y + a.y * b.w + a.z * b.x - a.x * b.z,
     a.w * b.z + a.z * b.w + a.x * b.y - a.y * b.x,
     a.w * b.w - a.x * b.x - a.y * b.y - a.z * b.z⟩⟩

/-- Godot Quaternion::inverse, the conjugate (assumes a unit quaternion). -/
def Quaternion.inverse (q : Quaternion) : Quaternion := ⟨-q.x, -q.y, -q.z, q.w⟩

/-- Godot Quaternion::dot, the 4D dot product. -/
def Quaternion.dot (a b : Quaternion) : ℚ :=
  a.x * b.x + a.y * b.y + a.z * b.z + a.w * b.w

/-- Godot Vector2::ZERO. -/
def Vector2.ZERO : Vector2 := ⟨0, 0⟩

/-- Godot Vector3::ZERO. -/
def Vector3.ZERO : Vector3 := ⟨0, 0, 0⟩

/-- Godot Quaternion::default(), the identity (zero) rotation. -/
def Quaternion.default : Quaternion := ⟨0, 0, 0, 1⟩

/-- The external Godot quaternion operations used by the rotation step:
normalized, log (logarithmic map) and to_exp (exponential map).  Their
implementations live in the godot crate, outside this repository, so the
embedding takes them as parameters. -/
structure QuaternionOps where
  normalized : Quaternion → Quaternion
  log : Quaternion → Quaternion
  to_exp : Quaternion → Quaternion

/-- The filter struct generated by generate_systems_for_simple_types,
generic over the value type. -/
structure SecondOrderSystem (T : Type) where
  period : ℚ
  damping : ℚ
  response : ℚ
  xp : T
  y : T
  yd : T
  k : ℚ × ℚ × ℚ

namespace SecondOrderSystem

variable {T : Type}

/-- calculate_k of the source: derives (k0, k1, k2) from
(period, damping, response). -/
def calculate_k (period damping response : ℚ) : ℚ × ℚ × ℚ :=
  let f := period
  let z := damping
  let r := response
  let k0 := z / (PI * f)
  let k1 := 1 / ((2 * PI * f) * (2 * PI * f))
  let k2 := r * z / (2 * PI * f)
  (k0, k1, k2)

/-- new of the source; the macro argument default is the per-type
zero value. -/
def new (dflt : T) (period damping response : ℚ) : SecondOrderSystem T :=
  { period := period
    damping := damping
    response := response
    xp := dflt
    y := dflt
    yd := dflt
    k := calculate_k period damping response }

/-- update_k of the source. -/
def update_k (s : SecondOrderSystem T) : SecondOrderSystem T :=
  { s with k := calculate_k s.period s.damping s.response }

/-- update_period of the source. -/
def update_period (s : SecondOrderSystem T) (period : ℚ) : SecondOrderSystem T :=
  update_k { s with period := period }

/-- update_damping of the source. -/
def update_damping (s : SecondOrderSystem T) (damping : ℚ) : SecondOrderSystem T :=
  update_k { s with damping := damping }

/-- update_response of the source. -/
def update_response (s : SecondOrderSystem T) (response : ℚ) : SecondOrderSystem T :=
  update_k { s with response := response }

/-- update_initial_values of the source (the seed operation). -/
def update_initial_values (s : SecondOrderSystem T)
    (previous current current_derevative : T) : SecondOrderSystem T :=
  { s with xp := previous, y := current, yd := current_derevative }

/-- interpolation_step of the source; the per-type step function the
macro wires in is passed explicitly. -/
def interpolation_step (step : ℚ → ℚ → ℚ → T → T → T → T → ℚ → T × T × T)
    (s : SecondOrderSystem T) (x : T) (d : ℚ) : SecondOrderSystem T :=
  let (k1, k2, k3) := s.k
  let (xp2, y2, yd2) := step k1 k2 k3 x s.xp s.y s.yd d
  { s with xp := xp2, y := y2, yd := yd2 }

/-- update of the source: runs the interpolation step and returns the
new output (the model returns the new state alongside it). -/
def update (step : ℚ → ℚ → ℚ → T → T → T → T → ℚ → T × T × T)
    (s : SecondOrderSystem T) (input : T) (delta : ℚ) :
    T × SecondOrderSystem T :=
  let s2 := interpolation_step step s input delta
  (s2.y, s2)

end SecondOrderSystem

/-- The stabilized divisor, the let k2_stable binding shared by the
scalar/vector steps and the quaternion step of the source. -/
def k2_stable (k2 k1 d : ℚ) : ℚ := max k2 (11/10 * (d * d + 1/2 * d * k1))

/-- interpolation_step_float, expanded from
generate_default_interpolation_step. -/
def interpolation_step_float (k1 k2 k3 x xp y yd d : ℚ) : ℚ × ℚ × ℚ :=
  let xd := (x - xp) / d
  let ks := k2_stable k2 k1 d
  let xp2 := x
  let y2 := y + d * yd
  let yd2 := yd + d * (x + k3 * xd - y2 - k1 * yd) / ks
  (xp2, y2, yd2)

/-- interpolation_step_vector2, expanded from
generate_default_interpolation_step. -/
def interpolation_step_vector2 (k1 k2 k3 : ℚ) (x xp y yd : Vector2) (d : ℚ) :
    Vector2 × Vector2 × Vector2 :=
  let xd := (x - xp) / d
  let ks := k2_stable k2 k1 d
  let xp2 := x
  let y2 := y + d * yd
  let yd2 := yd + d * (x + k3 * xd - y2 - k1 * yd) / ks
  (xp2, y2, yd2)

/-- interpolation_step_vector3, expanded from
generate_default_interpolation_step. -/
def interpolation_step_vector3 (k1 k2 k3 : ℚ) (x xp y yd : Vector3) (d : ℚ) :
    Vector3 × Vector3 × Vector3 :=
  let xd := (x - xp) / d
  let ks := k2_stable k2 k1 d
  let xp2 := x
  let y2 := y + d * yd
  let yd2 := yd + d * (x + k3 * xd - y2 - k1 * yd) / ks
  (xp2, y2, yd2)

/-- interpolation_step_quaternion of the source, parametrized by the
external Godot operations. -/
def interpolation_step_quaternion (ops : QuaternionOps) (k1 k2 k3 : ℚ)
    (x xp y yd : Quaternion) (d : ℚ) :
    Quaternion × Quaternion × Quaternion :=
  let x2 := if x.dot y < 0 then -x else x
  let xd := ops.log (ops.normalized (x2 * xp.inverse)) / d
  let ks := k2_stable k2 k1 d
  let xp2 := x2
  let y2 := ops.to_exp (d * yd) * y
  let yd2 := yd + d * (ops.log (ops.normalized (x2 * y2.inverse)) + k3 * xd - k1 * yd) / ks
  (xp2, y2, yd2)

/-- SecondOrderSystemFloat, from the macro invocation with default 0.0. -/
abbrev SecondOrderSystemFloat := SecondOrderSystem ℚ

/-- SecondOrderSystemVector2, from the macro invocation with default
Vector2::ZERO. -/
abbrev SecondOrderSystemVector2 := SecondOrderSystem Vector2

/-- SecondOrderSystemVector3, from the macro invocation with default
Vector3::ZERO. -/
abbrev SecondOrderSystemVector3 := SecondOrderSystem Vector3

/-- SecondOrderSystemQuaternion, from the macro invocation with default
Quaternion::default(). -/
abbrev SecondOrderSystemQuaternion := SecondOrderSystem Quaternion

/-- new of SecondOrderSystemFloat. -/
def SecondOrderSystemFloat.new (period damping response : ℚ) :
    SecondOrderSystemFloat :=
  SecondOrderSystem.new 0 period damping response

/-- update of SecondOrderSystemFloat. -/
def SecondOrderSystemFloat.update (s : SecondOrderSystemFloat)
    (input delta : ℚ) : ℚ × SecondOrderSystemFloat :=
  SecondOrderSystem.update interpolation_step_float s input delta

/-- new of SecondOrderSystemVector2. -/
def SecondOrderSystemVector2.new (period damping response : ℚ) :
    SecondOrderSystemVector2 :=
  SecondOrderSystem.new Vector2.ZERO period damping response

/-- update of SecondOrderSystemVector2. -/
def SecondOrderSystemVector2.update (s : SecondOrderSystemVector2)
    (input : Vector2) (delta : ℚ) : Vector2 × SecondOrderSystemVector2 :=
  SecondOrderSystem.update interpolation_step_vector2 s input delta

/-- new of SecondOrderSystemVector3. -/
def SecondOrderSystemVector3.new (period damping response : ℚ) :
    SecondOrderSystemVector3 :=
  SecondOrderSystem.new Vector3.ZERO period damping response

/-- update of SecondOrderSystemVector3. -/
def SecondOrderSystemVector3.update (s : SecondOrderSystemVector3)
    (input : Vector3) (delta : ℚ) : Vector3 × SecondOrderSystemVector3 :=
  SecondOrderSystem.update interpolation_step_vector3 s input delta

/-- new of SecondOrderSystemQuaternion. -/
def SecondOrderSystemQuaternion.new (period damping response : ℚ) :
    SecondOrderSystemQuaternion :=
  SecondOrderSystem.new Quaternion.default period damping response

/-- update of SecondOrderSystemQuaternion, parametrized by the external
Godot operations. -/
def SecondOrderSystemQuaternion.update (ops : QuaternionOps)
    (s : SecondOrderSystemQuaternion) (input : Quaternion) (delta : ℚ) :
    Quaternion × SecondOrderSystemQuaternion :=
  SecondOrderSystem.update (interpolation_step_quaternion ops) s input delta

/-- The integration step exactly as worded in spec section 4.2, with the
spec's positional coefficient naming (k0, k1, k2): finite difference,
stabilized k1, then previous_input, output and output_rate updates, the
output_rate update reading the already-advanced output. -/
def integration_step_spec {T : Type} [Add T] [Sub T] [HMul ℚ T T] [HDiv T ℚ T]
    (k0 k1 k2 : ℚ) (input previous_input output output_rate : T) (delta : ℚ) :
    T × T × T :=
  let xd := (input - previous_input) / delta
  let k1_stable := max k1 (11/10 * (delta * delta + 1/2 * delta * k0))
  let previous2 := input
  let output2 := output + delta * output_rate
  let rate2 := output_rate + delta * (input + k2 * xd - output2 - k0 * output_rate) / k1_stable
  (previous2, output2, rate2)

/-- The rotation integration step exactly as worded in spec section 4.3,
with the spec's positional coefficient naming (k0, k1, k2):
double-cover correction, target angular rate via the logarithmic map
(normalization first), stabilized k1, orientation advanced by the
exponential-map increment composed on the left, then the angular-rate
update reading the already-advanced orientation. -/
def rotation_step_spec (ops : QuaternionOps) (k0 k1 k2 : ℚ)
    (x xp y yd : Quaternion) (delta : ℚ) :
    Quaternion × Quaternion × Quaternion :=
  let x2 := if x.dot y < 0 then -x else x
  let xd := ops.log (ops.normalized (x2 * xp.inverse)) / delta
  let k1_stable := max k1 (11/10 * (delta * delta + 1/2 * delta * k0))
  let y2 := ops.to_exp (delta * yd) * y
  let yd2 := yd + delta * (ops.log (ops.normalized (x2 * y2.inverse)) + k2 * xd - k0 * yd) / k1_stable
  (x2, y2, yd2)

/-- Claim C1: for every scalar, 2D-vector and 3D-vector filter state,
every input x, and every delta d, update performs exactly the spec's
integration step — finite difference xd = (x - previous_input) / d,
stabilized divisor k1_stable = max(k1, 1.1 * (d^2 + 0.5 * d * k0))
(spec's positional naming, read off the stored coefficient triple
positionally), then previous_input = x, output advanced by
d * output_rate, output_rate advanced by
d * (x + k2 * xd - output - k0 * output_rate) / k1_stable with the
already-advanced output — and returns the new output. -/
theorem C1_update_follows_spec_step :
    (∀ (s : SecondOrderSystemFloat) (x d : ℚ),
      SecondOrderSystemFloat.update s x d =
        (let r := integration_step_spec s.k.1 s.k.2.1 s.k.2.2 x s.xp s.y s.yd d
         (r.2.1, { s with xp := r.1, y := r.2.1, yd := r.2.2 }))) ∧
    (∀ (s : SecondOrderSystemVector2) (x : Vector2) (d : ℚ),
      SecondOrderSystemVector2.update s x d =
        (let r := integration_step_spec s.k.1 s.k.2.1 s.k.2.2 x s.xp s.y s.yd d
         (r.2.1, { s with xp := r.1, y := r.2.1, yd := r.2.2 }))) ∧
    (∀ (s : SecondOrderSystemVector3) (x : Vector3) (d : ℚ),
      SecondOrderSystemVector3.update s x d =
        (let r := integration_step_spec s.k.1 s.k.2.1 s.k.2.2 x s.xp s.y s.yd d
         (r.2.1, { s with xp := r.1, y := r.2.1, yd := r.2.2 }))) :=
  ⟨fun _ _ _ => rfl, fun _ _ _ => rfl, fun _ _ _ => rfl⟩

/-- Claim C2: for every rotation filter state, every target x, and every
delta d (and any implementation of the external normalized/log/to_exp
operations), update performs exactly the spec's rotation integration
step — double-cover correction on x, xd = log(normalize(x *
inverse(previous_input))) / d, the same k1_stable clamp as the scalar
case, previous_input = x, y = exp(d * yd) * y composed on the left,
yd advanced by d * (log(normalize(x * inverse(y))) + k2 * xd - k0 * yd)
/ k1_stable with the already-advanced y, normalization before both
logarithmic-map calls — and returns the new y. -/
theorem C2_rotation_update_follows_spec_step :
    ∀ (ops : QuaternionOps) (s : SecondOrderSystemQuaternion)
      (x : Quaternion) (d : ℚ),
      SecondOrderSystemQuaternion.update ops s x d =
        (let r := rotation_step_spec ops s.k.1 s.k.2.1 s.k.2.2 x s.xp s.y s.yd d
         (r.2.1, { s with xp := r.1, y := r.2.1, yd := r.2.2 })) :=
  fun _ _ _ _ => rfl

/-- Claim C3: the coefficient solver is a pure function of
(period, damping, response): for period > 0 and damping >= 0 it returns
exactly (damping / (pi * period), 1 / (2 * pi * period)^2,
response * damping / (2 * pi * period)), in that positional order. -/
theorem C3_calculate_k_formulas (period damping response : ℚ)
    (hp : 0 < period) (hz : 0 ≤ damping) :
    SecondOrderSystem.calculate_k period damping response =
      (damping / (PI * period), 1 / (2 * PI * period) ^ 2,
       response * damping / (2 * PI * period)) := by
  unfold SecondOrderSystem.calculate_k
  rw [sq]

/-- Witness for C3 at period = 1, damping = 1, response = 0. -/
theorem C3_calculate_k_formulas_witness :
    SecondOrderSystem.calculate_k 1 1 0 =
      (1 / (PI * 1), 1 / (2 * PI * 1) ^ 2, 0 * 1 / (2 * PI * 1)) :=
  C3_calculate_k_formulas 1 1 0 one_pos zero_le_one

/-- The coefficient-cache invariant: the stored triple k equals the
coefficient solver applied to the stored parameters. -/
def kConsistent {T : Type} (s : SecondOrderSystem T) : Prop :=
  s.k = SecondOrderSystem.calculate_k s.period s.damping s.response

/-- Claim C4: the coefficient cache is consistent after new and is
preserved by every public operation (the parameter setters re-derive the
coefficients immediately; seeding and update leave parameters and
coefficients untouched), so stale coefficients are never observable. -/
theorem C4_coefficient_cache_consistency {T : Type}
    (step : ℚ → ℚ → ℚ → T → T → T → T → ℚ → T × T × T)
    (dflt : T) (p z r v1 v2 v3 : ℚ) (prev cur rate inp : T) (d : ℚ)
    (s : SecondOrderSystem T) (h : kConsistent s) :
    kConsistent (SecondOrderSystem.new dflt p z r) ∧
    kConsistent (s.update_period v1) ∧
    kConsistent (s.update_damping v2) ∧
    kConsistent (s.update_response v3) ∧
    kConsistent (s.update_initial_values prev cur rate) ∧
    kConsistent (SecondOrderSystem.update step s inp d).2 :=
  ⟨rfl, rfl, rfl, rfl, h, h⟩

/-- Witness for C4 on the scalar filter, seeded from new 1 1 0. -/
theorem C4_coefficient_cache_consistency_witness :
    kConsistent (SecondOrderSystem.new (0 : ℚ) 1 1 0) ∧
    kConsistent ((SecondOrderSystem.new (0 : ℚ) 1 1 0).update_period 2) ∧
    kConsistent ((SecondOrderSystem.new (0 : ℚ) 1 1 0).update_damping 3) ∧
    kConsistent ((SecondOrderSystem.new (0 : ℚ) 1 1 0).update_response 4) ∧
    kConsistent ((SecondOrderSystem.new (0 : ℚ) 1 1 0).update_initial_values 5 6 7) ∧
    kConsistent (SecondOrderSystem.update interpolation_step_float
      (SecondOrderSystem.new (0 : ℚ) 1 1 0) 8 9).2 :=
  C4_coefficient_cache_consistency interpolation_step_float 0 1 1 0 2 3 4 5 6 7 8 9
    (SecondOrderSystem.new (0 : ℚ) 1 1 0) rfl

/-- Claim C8: the parameter setters change only the named tuning
parameter and the cached coefficient triple; previous_input, output and
output_rate (and the other two parameters) are left unchanged. -/
theorem C8_setters_frame_condition {T : Type} (s : SecondOrderSystem T) (v : ℚ) :
    s.update_period v =
      { s with period := v,
               k := SecondOrderSystem.calculate_k v s.damping s.response } ∧
    s.update_damping v =
      { s with damping := v,
               k := SecondOrderSystem.calculate_k s.period v s.response } ∧
    s.update_response v =
      { s with response := v,
               k := SecondOrderSystem.calculate_k s.period s.damping v } :=
  ⟨rfl, rfl, rfl⟩

/-- Claim C9: for each of the four filter types, new(period, damping,
response) stores the three parameters, derives the coefficients from
them, and initializes previous_input, output and output_rate to the
value type's zero value (0, Vector2::ZERO, Vector3::ZERO, and for
rotations the zero rotation Quaternion::default(), the identity). -/
theorem C9_new_initializes_state :
    ∀ p z r : ℚ,
    SecondOrderSystemFloat.new p z r =
      ⟨p, z, r, 0, 0, 0, SecondOrderSystem.calculate_k p z r⟩ ∧
    SecondOrderSystemVector2.new p z r =
      ⟨p, z, r, Vector2.ZERO, Vector2.ZERO, Vector2.ZERO,
       SecondOrderSystem.calculate_k p z r⟩ ∧
    SecondOrderSystemVector3.new p z r =
      ⟨p, z, r, Vector3.ZERO, Vector3.ZERO, Vector3.ZERO,
       SecondOrderSystem.calculate_k p z r⟩ ∧
    SecondOrderSystemQuaternion.new p z r =
      ⟨p, z, r, Quaternion.default, Quaternion.default, Quaternion.default,
       SecondOrderSystem.calculate_k p z r⟩ :=
  fun _ _ _ => ⟨rfl, rfl, rfl, rfl⟩

@[simp] lemma Vector2.add2_def (a b : Vector2) : a + b = ⟨a.x + b.x, a.y + b.y⟩ := rfl

@[simp] lemma Vector2.sub2_def (a b : Vector2) : a - b = ⟨a.x - b.x, a.y - b.y⟩ := rfl

@[simp] lemma Vector2.smul2_def (c : ℚ) (v : Vector2) : c * v = ⟨c * v.x, c * v.y⟩ := rfl

@[simp] lemma Vector2.div2_def (v : Vector2) (c : ℚ) : v / c = ⟨v.x / c, v.y / c⟩ := rfl

@[simp] lemma Vector3.add3_def (a b : Vector3) : a + b = ⟨a.x + b.x, a.y + b.y, a.z + b.z⟩ := rfl

@[simp] lemma Vector3.sub3_def (a b : Vector3) : a - b = ⟨a.x - b.x, a.y - b.y, a.z - b.z⟩ := rfl

@[simp] lemma Vector3.smul3_def (c : ℚ) (v : Vector3) : c * v = ⟨c * v.x, c * v.y, c * v.z⟩ := rfl

@[simp] lemma Vector3.div3_def (v : Vector3) (c : ℚ) : v / c = ⟨v.x / c, v.y / c, v.z / c⟩ := rfl

@[simp] lemma Quaternion.addq_def (a b : Quaternion) :
    a + b = ⟨a.x + b.x, a.y + b.y, a.z + b.z, a.w + b.w⟩ := rfl

@[simp] lemma Quaternion.subq_def (a b : Quaternion) :
    a - b = ⟨a.x - b.x, a.y - b.y, a.z - b.z, a.w - b.w⟩ := rfl

@[simp] lemma Quaternion.negq_def (q : Quaternion) : -q = ⟨-q.x, -q.y, -q.z, -q.w⟩ := rfl

@[simp] lemma Quaternion.smulq_def (c : ℚ) (q : Quaternion) :
    c * q = ⟨c * q.x, c * q.y, c * q.z, c * q.w⟩ := rfl

@[simp] lemma Quaternion.divq_def (q : Quaternion) (c : ℚ) :
    q / c = ⟨q.x / c, q.y / c, q.z / c, q.w / c⟩ := rfl

@[simp] lemma Quaternion.mulq_def (a b : Quaternion) :
    a * b =
      ⟨a.w * b.x + a.x * b.w + a.y * b.z - a.z * b.y,
       a.w * b.y + a.y * b.w + a.z * b.x - a.x * b.z,
       a.w * b.z + a.z * b.w + a.x * b.y - a.y * b.x,
       a.w * b.w - a.x * b.x - a.y * b.y - a.z * b.z⟩ := rfl

/-- Claim C10: for delta > 0 and a nonnegative clamp coefficient (the
spec's k0, the source step's k1 argument), the stabilized divisor
max(k1, 1.1 * (delta^2 + 0.5 * delta * k0)) is at least
1.1 * delta^2 > 0 regardless of the value of the other coefficient, so
the output-rate update of the scalar/vector and rotation steps never
divides by zero; the finite-difference division by delta is the only
division in the step whose divisor is not this expression. -/
theorem C10_stable_divisor_positive (k2 k1 d : ℚ) (hd : 0 < d) (hk : 0 ≤ k1) :
    11/10 * d ^ 2 ≤ k2_stable k2 k1 d ∧ 0 < k2_stable k2 k1 d := by
  unfold k2_stable
  have h1 : 11/10 * d ^ 2 ≤ 11/10 * (d * d + 1/2 * d * k1) := by nlinarith
  have h2 := le_max_right k2 (11/10 * (d * d + 1/2 * d * k1))
  have h3 : 0 < 11/10 * d ^ 2 := by positivity
  exact ⟨h1.trans h2, h3.trans_le (h1.trans h2)⟩

/-- Witness for C10 at k2 = 0, k1 = 0, d = 1. -/
theorem C10_stable_divisor_positive_witness :
    11/10 * (1 : ℚ) ^ 2 ≤ k2_stable 0 0 1 ∧ 0 < k2_stable 0 0 1 :=
  C10_stable_divisor_positive 0 0 1 one_pos (le_refl 0)

/-- Claim C7: zero-rate seed equivalence, for every value type.  Seeding
with (previous = target0, current = target0, rate = zero) makes the
state a fixed point of the step under constant input target0: the first
update(target0, d) with d > 0 returns target0 and leaves the state
unchanged (exactly, in the exact-arithmetic model).  For the rotation
filter the external operations are only assumed to satisfy their
defining identities at the identity rotation: normalize maps the scalar
quaternion (0,0,0,dot(q0,q0)) to the identity, log maps the identity to
the zero vector, exp maps the zero vector to the identity. -/
theorem C7_zero_rate_seed_fixed_point
    (d x0 : ℚ) (v2 : Vector2) (v3 : Vector3) (ops : QuaternionOps) (q0 : Quaternion)
    (sf : SecondOrderSystemFloat) (s2 : SecondOrderSystemVector2)
    (s3 : SecondOrderSystemVector3) (sq : SecondOrderSystemQuaternion)
    (hd : 0 < d)
    (hn : ops.normalized ⟨0, 0, 0, q0.dot q0⟩ = ⟨0, 0, 0, 1⟩)
    (hl : ops.log ⟨0, 0, 0, 1⟩ = ⟨0, 0, 0, 0⟩)
    (he : ops.to_exp ⟨0, 0, 0, 0⟩ = ⟨0, 0, 0, 1⟩) :
    SecondOrderSystemFloat.update (sf.update_initial_values x0 x0 0) x0 d =
      (x0, sf.update_initial_values x0 x0 0) ∧
    SecondOrderSystemVector2.update (s2.update_initial_values v2 v2 Vector2.ZERO) v2 d =
      (v2, s2.update_initial_values v2 v2 Vector2.ZERO) ∧
    SecondOrderSystemVector3.update (s3.update_initial_values v3 v3 Vector3.ZERO) v3 d =
      (v3, s3.update_initial_values v3 v3 Vector3.ZERO) ∧
    SecondOrderSystemQuaternion.update ops (sq.update_initial_values q0 q0 ⟨0, 0, 0, 0⟩) q0 d =
      (q0, sq.update_initial_values q0 q0 ⟨0, 0, 0, 0⟩) := by
  refine ⟨?_, ?_, ?_, ?_⟩
  · obtain ⟨p, z, r, xp, y, yd, k1, k2, k3⟩ := sf
    simp [SecondOrderSystemFloat.update, SecondOrderSystem.update,
      SecondOrderSystem.interpolation_step, SecondOrderSystem.update_initial_values,
      interpolation_step_float]
  · obtain ⟨p, z, r, xp, y, yd, k1, k2, k3⟩ := s2
    simp [SecondOrderSystemVector2.update, SecondOrderSystem.update,
      SecondOrderSystem.interpolation_step, SecondOrderSystem.update_initial_values,
      interpolation_step_vector2, Vector2.ZERO]
  · obtain ⟨p, z, r, xp, y, yd, k1, k2, k3⟩ := s3
    simp [SecondOrderSystemVector3.update, SecondOrderSystem.update,
      SecondOrderSystem.interpolation_step, SecondOrderSystem.update_initial_values,
      interpolation_step_vector3, Vector3.ZERO]
  · obtain ⟨p, z, r, xp, y, yd, k1, k2, k3⟩ := sq
    have hdotnn : ¬ (Quaternion.dot q0 q0 < 0) := by
      rw [not_lt]
      unfold Quaternion.dot
      nlinarith [mul_self_nonneg q0.x, mul_self_nonneg q0.y,
        mul_self_nonneg q0.z, mul_self_nonneg q0.w]
    have h3 : q0 * q0.inverse = ⟨0, 0, 0, q0.dot q0⟩ := by
      simp only [Quaternion.mulq_def, Quaternion.inverse, Quaternion.dot,
        Quaternion.mk.injEq]
      refine ⟨by ring, by ring, by ring, by ring⟩
    have hone : (⟨0, 0, 0, 1⟩ : Quaternion) * q0 = q0 := by
      simp only [Quaternion.mulq_def]
      simp
    simp only [SecondOrderSystemQuaternion.update, SecondOrderSystem.update,
      SecondOrderSystem.interpolation_step, SecondOrderSystem.update_initial_values,
      interpolation_step_quaternion]
    rw [if_neg hdotnn]
    simp only [Quaternion.smulq_def, mul_zero]
    rw [he, hone, h3, hn, hl]
    simp

/-- Concrete quaternion operations for the C7 witness: normalize is the
identity map, log is constantly the zero vector and exp is constantly
the identity rotation, which satisfy the three identities C7 assumes. -/
def wOps : QuaternionOps := ⟨id, fun _ => ⟨0, 0, 0, 0⟩, fun _ => ⟨0, 0, 0, 1⟩⟩

/-- Witness for C7 at d = 1, scalar target 2, concrete vector and unit
quaternion targets and fresh filters. -/
theorem C7_zero_rate_seed_fixed_point_witness :
    SecondOrderSystemFloat.update
        ((SecondOrderSystemFloat.new 1 1 0).update_initial_values 2 2 0) 2 1 =
      (2, (SecondOrderSystemFloat.new 1 1 0).update_initial_values 2 2 0) ∧
    SecondOrderSystemVector2.update
        ((SecondOrderSystemVector2.new 1 1 0).update_initial_values ⟨1, 2⟩ ⟨1, 2⟩ Vector2.ZERO) ⟨1, 2⟩ 1 =
      (⟨1, 2⟩, (SecondOrderSystemVector2.new 1 1 0).update_initial_values ⟨1, 2⟩ ⟨1, 2⟩ Vector2.ZERO) ∧
    SecondOrderSystemVector3.update
        ((SecondOrderSystemVector3.new 1 1 0).update_initial_values ⟨1, 2, 3⟩ ⟨1, 2, 3⟩ Vector3.ZERO) ⟨1, 2, 3⟩ 1 =
      (⟨1, 2, 3⟩, (SecondOrderSystemVector3.new 1 1 0).update_initial_values ⟨1, 2, 3⟩ ⟨1, 2, 3⟩ Vector3.ZERO) ∧
    SecondOrderSystemQuaternion.update wOps
        ((SecondOrderSystemQuaternion.new 1 1 0).update_initial_values ⟨0, 0, 0, 1⟩ ⟨0, 0, 0, 1⟩ ⟨0, 0, 0, 0⟩) ⟨0, 0, 0, 1⟩ 1 =
      (⟨0, 0, 0, 1⟩, (SecondOrderSystemQuaternion.new 1 1 0).update_initial_values ⟨0, 0, 0, 1⟩ ⟨0, 0, 0, 1⟩ ⟨0, 0, 0, 0⟩) :=
  C7_zero_rate_seed_fixed_point 1 2 ⟨1, 2⟩ ⟨1, 2, 3⟩ wOps ⟨0, 0, 0, 1⟩
    (SecondOrderSystemFloat.new 1 1 0) (SecondOrderSystemVector2.new 1 1 0)
    (SecondOrderSystemVector3.new 1 1 0) (SecondOrderSystemQuaternion.new 1 1 0)
    one_pos (by simp [wOps, Quaternion.dot]) rfl rfl

/-- Outputs of calling update once per target of the list, threading the
state, with a fixed delta. -/
def runQuat (ops : QuaternionOps) (s : SecondOrderSystemQuaternion) (d : ℚ) :
    List Quaternion → List Quaternion
  | [] => []
  | t :: ts =>
    (SecondOrderSystemQuaternion.update ops s t d).1 ::
      runQuat ops (SecondOrderSystemQuaternion.update ops s t d).2 d ts

/-- Along the run, every step's incoming target has nonzero 4D dot
product with the current output rotation. -/
def dotNonzeroRun (ops : QuaternionOps) (s : SecondOrderSystemQuaternion) (d : ℚ) :
    List Quaternion → Prop
  | [] => True
  | t :: ts =>
    Quaternion.dot t s.y ≠ 0 ∧
      dotNonzeroRun ops (SecondOrderSystemQuaternion.update ops s t d).2 d ts

/-- When the incoming target is not exactly orthogonal (4D dot) to the
current output, the double-cover correction makes the rotation step
agree on x and -x. -/
lemma interpolation_step_quaternion_neg (ops : QuaternionOps) (k1 k2 k3 : ℚ)
    (x xp y yd : Quaternion) (d : ℚ) (h : Quaternion.dot x y ≠ 0) :
    interpolation_step_quaternion ops k1 k2 k3 (-x) xp y yd d =
      interpolation_step_quaternion ops k1 k2 k3 x xp y yd d := by
  have hdneg : Quaternion.dot (-x) y = -Quaternion.dot x y := by
    simp [Quaternion.dot]
    ring
  have hx : (if Quaternion.dot (-x) y < 0 then -(-x) else -x) =
      (if Quaternion.dot x y < 0 then -x else x) := by
    rcases lt_or_gt_of_ne h with hlt | hgt
    · rw [hdneg, if_neg (not_lt.mpr (le_of_lt (neg_pos.mpr hlt))), if_pos hlt]
    · rw [hdneg, if_pos (neg_lt_zero.mpr hgt), if_neg (not_lt.mpr (le_of_lt hgt))]
      simp [Quaternion.negq_def]
  simp only [interpolation_step_quaternion]
  rw [hx]

/-- update agrees on targets t and -t whenever dot(t, y) is nonzero. -/
lemma update_quaternion_neg (ops : QuaternionOps) (s : SecondOrderSystemQuaternion)
    (t : Quaternion) (d : ℚ) (h : Quaternion.dot t s.y ≠ 0) :
    SecondOrderSystemQuaternion.update ops s (-t) d =
      SecondOrderSystemQuaternion.update ops s t d := by
  obtain ⟨p, z, r, xp, y, yd, k1, k2, k3⟩ := s
  simp only [SecondOrderSystemQuaternion.update, SecondOrderSystem.update,
    SecondOrderSystem.interpolation_step]
  rw [interpolation_step_quaternion_neg ops k1 k2 k3 t xp y yd d h]

/-- Concrete quaternion operations for the C6 counterexample: normalize
and log are the identity map and exp is the first-order approximation
v + identity; like Godot's logarithmic map, this log distinguishes the
antipodal representatives q and -q. -/
def ceOps : QuaternionOps := ⟨id, id, fun v => v + ⟨0, 0, 0, 1⟩⟩

/-- Concrete rotation-filter state for the C6 counterexample: built by
new(1, 0, 0) then seeding with identity rotations and zero rate. -/
def ceState : SecondOrderSystemQuaternion :=
  (SecondOrderSystemQuaternion.new 1 0 0).update_initial_values
    ⟨0, 0, 0, 1⟩ ⟨0, 0, 0, 1⟩ ⟨0, 0, 0, 0⟩

/-- The 180-degree rotation about the x axis, which has 4D dot product
exactly 0 with the identity output of ceState. -/
def ceq : Quaternion := ⟨1, 0, 0, 0⟩

/-- Counterexample to claim C6 as stated: feeding the target q at every
step and feeding -q at every step do not always produce identical output
sequences.  With dot(q, y) exactly 0 the double-cover correction fires
in neither run, the two runs keep antipodal targets, and the second
outputs differ. -/
theorem C6_double_cover_counterexample :
    runQuat ceOps ceState 1 [-ceq, -ceq] ≠ runQuat ceOps ceState 1 [ceq, ceq] := by
  have hL : runQuat ceOps ceState 1 [-ceq, -ceq] =
      [⟨0, 0, 0, 1⟩, ⟨-10/11, 0, 0, 1⟩] := by
    norm_num [runQuat, ceOps, ceState, ceq, SecondOrderSystemQuaternion.update,
      SecondOrderSystemQuaternion.new, SecondOrderSystem.update,
      SecondOrderSystem.interpolation_step, SecondOrderSystem.update_initial_values,
      SecondOrderSystem.new, SecondOrderSystem.calculate_k,
      interpolation_step_quaternion, k2_stable, Quaternion.dot, Quaternion.inverse,
      Quaternion.default, max_def, PI]
  have hR : runQuat ceOps ceState 1 [ceq, ceq] =
      [⟨0, 0, 0, 1⟩, ⟨10/11, 0, 0, 1⟩] := by
    norm_num [runQuat, ceOps, ceState, ceq, SecondOrderSystemQuaternion.update,
      SecondOrderSystemQuaternion.new, SecondOrderSystem.update,
      SecondOrderSystem.interpolation_step, SecondOrderSystem.update_initial_values,
      SecondOrderSystem.new, SecondOrderSystem.calculate_k,
      interpolation_step_quaternion, k2_stable, Quaternion.dot, Quaternion.inverse,
      Quaternion.default, max_def, PI]
  rw [hL, hR]
  intro hEq
  have := List.head_eq_of_cons_eq (List.tail_eq_of_cons_eq hEq)
  rw [Quaternion.mk.injEq] at this
  norm_num at this

/-- Claim C6 amended: for every rotation-filter state, every delta, and
every target sequence in which each step's incoming target has nonzero
4D dot product with the current output rotation (so the strict
double-cover test dot < 0 is decisive), feeding q at every step and
feeding -q at every step produce identical output sequences, whatever
the external normalize/log/exp operations are. -/
theorem C6_double_cover_invariance_amended (ops : QuaternionOps)
    (s : SecondOrderSystemQuaternion) (d : ℚ) (ts : List Quaternion)
    (h : dotNonzeroRun ops s d ts) :
    runQuat ops s d (ts.map (fun t => -t)) = runQuat ops s d ts := by
  induction ts generalizing s with
  | nil => rfl
  | cons t ts ih =>
    obtain ⟨h1, h2⟩ := h
    simp only [List.map_cons, runQuat]
    rw [update_quaternion_neg ops s t d h1]
    rw [ih _ h2]

/-- Witness for the amended C6 on a one-step run whose dot product is 1. -/
theorem C6_double_cover_invariance_amended_witness :
    dotNonzeroRun ceOps ceState 1 [⟨0, 0, 0, 1⟩] ∧
    runQuat ceOps ceState 1 ([(⟨0, 0, 0, 1⟩ : Quaternion)].map (fun t => -t)) =
      runQuat ceOps ceState 1 [⟨0, 0, 0, 1⟩] := by
  have hnz : dotNonzeroRun ceOps ceState 1 [⟨0, 0, 0, 1⟩] := by
    refine ⟨?_, trivial⟩
    norm_num [Quaternion.dot, ceState, SecondOrderSystemQuaternion.new,
      SecondOrderSystem.new, SecondOrderSystem.update_initial_values]
  exact ⟨hnz, C6_double_cover_invariance_amended ceOps ceState 1 [⟨0, 0, 0, 1⟩] hnz⟩
/-- The scalar filter state after n repeated updates with constant
input x and constant delta d. -/
def runFloat (s : SecondOrderSystemFloat) (x d : ℚ) : Nat → SecondOrderSystemFloat
  | 0 => s
  | n + 1 => (SecondOrderSystemFloat.update (runFloat s x d n) x d).2

/-- The coefficient triple of the C5 configuration period = 1,
damping = 1, response = 0. -/
def c5k : ℚ × ℚ × ℚ := SecondOrderSystem.calculate_k 1 1 0

/-- The stabilized divisor of the C5 configuration at delta = 10 (the
clamp branch of the max wins). -/
def c5K : ℚ := k2_stable c5k.2.1 c5k.1 10

/-- Quadratic Lyapunov function in the error e = output - target and
the output rate w; the update map scales it by the factor c5p. -/
def c5Q (e w : ℚ) : ℚ := e ^ 2 + (10 + c5k.1) * e * w + c5K * w ^ 2

/-- The contraction factor of the C5 update map, the determinant of its
linear part. -/
def c5p : ℚ := 1 - 10 * c5k.1 / c5K

/-- Positive-definiteness margin of c5Q in the error coordinate. -/
def c5c : ℚ := 1 - (10 + c5k.1) ^ 2 / (4 * c5K)

lemma c5K_pos : 0 < c5K := by
  norm_num [c5K, c5k, k2_stable, SecondOrderSystem.calculate_k, PI, max_def]

lemma c5k3_zero : c5k.2.2 = 0 := by
  norm_num [c5k, SecondOrderSystem.calculate_k, PI]

lemma c5p_le_one : c5p ≤ 1 := by
  norm_num [c5p, c5K, c5k, k2_stable, SecondOrderSystem.calculate_k, PI, max_def]

lemma c5c_pos : 0 < c5c := by
  norm_num [c5c, c5K, c5k, k2_stable, SecondOrderSystem.calculate_k, PI, max_def]

lemma c5_step (s : SecondOrderSystemFloat) (hk : s.k = c5k) (xt : ℚ) :
    (SecondOrderSystemFloat.update s xt 10).2.y = s.y + 10 * s.yd ∧
    (SecondOrderSystemFloat.update s xt 10).2.yd
      = s.yd + 10 * (xt - (s.y + 10 * s.yd) - c5k.1 * s.yd) / c5K ∧
    (SecondOrderSystemFloat.update s xt 10).2.k = c5k := by
  obtain ⟨p, z, r, xp, y, yd, k⟩ := s
  have hk2 : k = c5k := hk
  subst hk2
  refine ⟨rfl, ?_, rfl⟩
  show yd + 10 * (xt + c5k.2.2 * ((xt - xp) / 10) - (y + 10 * yd) - c5k.1 * yd) / c5K
    = yd + 10 * (xt - (y + 10 * yd) - c5k.1 * yd) / c5K
  rw [c5k3_zero]
  ring

lemma c5_run_k (s : SecondOrderSystemFloat) (hk : s.k = c5k) (xt : ℚ) :
    ∀ n, (runFloat s xt 10 n).k = c5k := by
  intro n
  induction n with
  | zero => exact hk
  | succ n ih => exact (c5_step (runFloat s xt 10 n) ih xt).2.2

lemma c5_lyap (y yd xt : ℚ) :
    c5Q ((y + 10 * yd) - xt) (yd + 10 * (xt - (y + 10 * yd) - c5k.1 * yd) / c5K)
      = c5p * c5Q (y - xt) yd := by
  have hK : c5K ≠ 0 := ne_of_gt c5K_pos
  unfold c5Q c5p
  field_simp
  ring

lemma c5_lower (e w : ℚ) : c5c * e ^ 2 ≤ c5Q e w := by
  have hK : (0 : ℚ) < c5K := c5K_pos
  have key : c5Q e w - c5c * e ^ 2 = (2 * c5K * w + (10 + c5k.1) * e) ^ 2 / (4 * c5K) := by
    unfold c5Q c5c
    field_simp
    ring
  have h := div_nonneg (sq_nonneg (2 * c5K * w + (10 + c5k.1) * e))
    (by linarith : (0 : ℚ) ≤ 4 * c5K)
  linarith [key, h]

lemma c5_Q_nonneg (e w : ℚ) : 0 ≤ c5Q e w :=
  le_trans (mul_nonneg (le_of_lt c5c_pos) (sq_nonneg e)) (c5_lower e w)

lemma c5_Q_mono (s : SecondOrderSystemFloat) (hk : s.k = c5k) (xt : ℚ) :
    ∀ n, c5Q ((runFloat s xt 10 n).y - xt) ((runFloat s xt 10 n).yd)
      ≤ c5Q (s.y - xt) s.yd := by
  intro n
  induction n with
  | zero => exact le_refl _
  | succ n ih =>
    have hkn := c5_run_k s hk xt n
    have hstep := c5_step (runFloat s xt 10 n) hkn xt
    have heq : c5Q ((runFloat s xt 10 (n + 1)).y - xt) ((runFloat s xt 10 (n + 1)).yd)
        = c5p * c5Q ((runFloat s xt 10 n).y - xt) ((runFloat s xt 10 n).yd) := by
      show c5Q ((SecondOrderSystemFloat.update (runFloat s xt 10 n) xt 10).2.y - xt)
          ((SecondOrderSystemFloat.update (runFloat s xt 10 n) xt 10).2.yd)
        = c5p * c5Q ((runFloat s xt 10 n).y - xt) ((runFloat s xt 10 n).yd)
      rw [hstep.1, hstep.2.1]
      exact c5_lyap (runFloat s xt 10 n).y (runFloat s xt 10 n).yd xt
    rw [heq]
    have hQn := c5_Q_nonneg ((runFloat s xt 10 n).y - xt) ((runFloat s xt 10 n).yd)
    have h1 : c5p * c5Q ((runFloat s xt 10 n).y - xt) ((runFloat s xt 10 n).yd)
        ≤ 1 * c5Q ((runFloat s xt 10 n).y - xt) ((runFloat s xt 10 n).yd) :=
      mul_le_mul_of_nonneg_right c5p_le_one hQn
    rw [one_mul] at h1
    exact le_trans h1 ih

/-- Claim C5: stability under large delta.  For the scalar filter
configured by new(1, 1, 0) (period = 1, damping = 1, response = 0,
so the response coefficient is 0), seeded arbitrarily, repeatedly
calling update with a constant target and delta = 10.0 never diverges:
every output in the infinite sequence of updates is bounded by one
uniform bound.  The proof exhibits a quadratic Lyapunov function that
the k1-stabilization clamp makes non-increasing along the run; in the
exact-arithmetic model every state is a total rational value, so no NaN
can arise. -/
theorem C5_large_delta_stability (xt xp0 y0 yd0 : ℚ) :
    ∃ B : ℚ, ∀ n : Nat,
      |(runFloat ((SecondOrderSystemFloat.new 1 1 0).update_initial_values xp0 y0 yd0)
          xt 10 n).y| ≤ B := by
  refine ⟨|xt| + max 1 (c5Q (y0 - xt) yd0 / c5c), fun n => ?_⟩
  have hk0 : ((SecondOrderSystemFloat.new 1 1 0).update_initial_values xp0 y0 yd0).k = c5k := rfl
  have hQ2 : c5Q ((runFloat ((SecondOrderSystemFloat.new 1 1 0).update_initial_values xp0 y0 yd0) xt 10 n).y - xt)
      ((runFloat ((SecondOrderSystemFloat.new 1 1 0).update_initial_values xp0 y0 yd0) xt 10 n).yd)
      ≤ c5Q (y0 - xt) yd0 :=
    c5_Q_mono _ hk0 xt n
  have hlow := c5_lower
    ((runFloat ((SecondOrderSystemFloat.new 1 1 0).update_initial_values xp0 y0 yd0) xt 10 n).y - xt)
    ((runFloat ((SecondOrderSystemFloat.new 1 1 0).update_initial_values xp0 y0 yd0) xt 10 n).yd)
  have hc := c5c_pos
  set e := (runFloat ((SecondOrderSystemFloat.new 1 1 0).update_initial_values xp0 y0 yd0) xt 10 n).y - xt with he
  have he2 : e ^ 2 ≤ c5Q (y0 - xt) yd0 / c5c := by
    rw [le_div_iff₀ hc]
    nlinarith [hlow, hQ2]
  have habs : |e| ≤ max 1 (c5Q (y0 - xt) yd0 / c5c) := by
    rcases le_or_lt |e| 1 with h1 | h1
    · exact le_trans h1 (le_max_left _ _)
    · have h2 : |e| ≤ e ^ 2 := by nlinarith [sq_abs e, abs_nonneg e]
      exact le_trans h2 (le_trans he2 (le_max_right _ _))
  have hy : (runFloat ((SecondOrderSystemFloat.new 1 1 0).update_initial_values xp0 y0 yd0) xt 10 n).y
      = xt + e := by rw [he]; ring
  rw [hy]
  calc |xt + e| ≤ |xt| + |e| := abs_add _ _
    _ ≤ |xt| + max 1 (c5Q (y0 - xt) yd0 / c5c) := by linarith [habs]

end Godot
